import Mathlib

/-!
Verification of the LMFlow conversation-template rendering core
(`src/lmflow/utils/conversation_template/qwen.py` and `yi.py`).

The Jinja-style template strings (`QWEN3_TEMPLATE`, `QWEN2_5_TEMPLATE`) are
sequences of output statements and control tags with no literal text between
tags, so their semantics is embedded here directly as Lean functions over the
message data model.  Rendering produces the output string together with the
list of half-open `(start, stop)` generation spans recorded by the
`generation`/`endgeneration` blocks.
-/

namespace LMFlow

/-! ## Python string primitives used by the templates -/

/-- Does the text begin with the pattern (first argument)? -/
def leadsWith : List Char → List Char → Bool
  | [], _ => true
  | _ :: _, [] => false
  | p :: ps, c :: cs => p == c && leadsWith ps cs

/-- Worker for `pySplit`: left-to-right scan cutting at every non-overlapping
occurrence of `sep`; `acc` holds the current part reversed, and the fuel (at
least the length of the remaining text, which shrinks at every step) makes the
recursion structural. -/
def splitGo (sep : List Char) : Nat → List Char → List Char → List (List Char)
  | _, [], acc => [acc.reverse]
  | 0, rest, acc => [acc.reverse ++ rest]
  | fuel + 1, c :: cs, acc =>
    if leadsWith sep (c :: cs) then
      acc.reverse :: splitGo sep fuel (List.drop sep.length (c :: cs)) []
    else
      splitGo sep fuel cs (c :: acc)

/-- Python `s.split(sep)` for a nonempty separator: the parts of `s` between
consecutive non-overlapping occurrences of `sep`, scanned left to right. -/
def pySplit (s sep : String) : List String :=
  if sep.toList = [] then [s]
  else (splitGo sep.toList s.toList.length s.toList []).map String.mk

/-- Python `s.startswith(pre)`. -/
def pyStartsWith (s pre : String) : Bool :=
  leadsWith pre.toList s.toList

/-- Python `s.endswith(suf)`. -/
def pyEndsWith (s suf : String) : Bool :=
  leadsWith suf.toList.reverse s.toList.reverse

/-- Python `s.lstrip('\n')`: drop leading newline characters. -/
def lstripNL (s : String) : String :=
  String.mk (s.toList.dropWhile (· == '\n'))

/-- Python `s.rstrip('\n')`: drop trailing newline characters. -/
def rstripNL (s : String) : String :=
  String.mk ((s.toList.reverse.dropWhile (· == '\n')).reverse)

/-- Python `s.strip('\n')`: drop newline characters on both ends. -/
def stripNL (s : String) : String :=
  lstripNL (rstripNL s)

/-- Python `pat in s` for a nonempty pattern: the split yields more than one
part exactly when the pattern occurs. -/
def hasSubstr (s pat : String) : Bool :=
  (pySplit s pat).length != 1

/-! ## Data model (spec section 3) -/

/-- Message roles accepted by the templates. -/
inductive Role where
  | system
  | user
  | assistant
  | tool
deriving DecidableEq, Repr

/-- The textual form of a role, as interpolated by
`'<|im_start|>' + message.role`. -/
def Role.str : Role → String
  | .system => "system"
  | .user => "user"
  | .assistant => "assistant"
  | .tool => "tool"

/-- `tool_call.arguments` is either a pre-serialized string (emitted verbatim
by `QWEN3_TEMPLATE`) or a JSON-like object, carried here by its `tojson`
serialization. -/
inductive ToolArgs where
  | str (s : String)
  | jsonObj (serialized : String)
deriving DecidableEq, Repr

/-- The Jinja `tojson` filter applied to an `arguments` value: a string value
is quoted, an object value serializes to its JSON form. -/
def ToolArgs.tojson : ToolArgs → String
  | .str s => "\"" ++ s ++ "\""
  | .jsonObj j => j

/-- A tool call attached to an assistant message. -/
structure ToolCall where
  name : String
  arguments : ToolArgs
deriving DecidableEq, Repr

/-- A conversation message. `reasoning_content = some r` models a message on
which the attribute is defined and not `None`; both the undefined and the
`None` cases coincide on `none`, exactly as the template's guard
`is defined and is not none` merges them. -/
structure Message where
  role : Role
  content : String
  tool_calls : List ToolCall := []
  reasoning_content : Option String := none
deriving DecidableEq, Repr

/-- A tool specification, opaque to the engine: it only ever flows through
`tojson`, so it is carried by that serialization. -/
structure ToolSpec where
  serialized : String
deriving DecidableEq, Repr

def ToolSpec.tojson (t : ToolSpec) : String := t.serialized

/-! ## QWEN3_TEMPLATE: last-query scan (qwen.py lines 343-350) -/

/-- The wrapped tool-response test on a user message:
`message.content.startswith('<tool_response>') and
message.content.endswith('</tool_response>')`. -/
def isWrappedToolResponse (m : Message) : Bool :=
  pyStartsWith m.content "<tool_response>" && pyEndsWith m.content "</tool_response>"

/-- A "true" user query: a user message that is not a wrapped tool response. -/
def isTrueUserQuery (m : Message) : Bool :=
  m.role == Role.user && !(isWrappedToolResponse m)

/-- The namespace object of
`set ns = namespace(multi_step_tool=true, last_query_index=messages|length - 1)`. -/
structure NsState where
  multi_step_tool : Bool
  last_query_index : Nat
deriving DecidableEq, Repr

/-- One iteration of the reverse scan (qwen.py lines 346-349). -/
def qwen3ScanStep (ns : NsState) (index : Nat) (m : Message) : NsState :=
  if ns.multi_step_tool && isTrueUserQuery m then
    { multi_step_tool := false, last_query_index := index }
  else ns

/-- The sequence of `(index, message)` pairs visited by
`for message in messages[::-1]` together with
`index = (messages|length - 1) - loop.index0` (qwen.py lines 344-345). -/
def qwen3ReverseVisit (messages : List Message) : List (Nat × Message) :=
  (messages.reverse).enum.map (fun p => (messages.length - 1 - p.1, p.2))

/-- The value of `ns.last_query_index` after the reverse scan. -/
def qwen3LastQueryIndex (messages : List Message) : Nat :=
  ((qwen3ReverseVisit messages).foldl
    (fun ns p => qwen3ScanStep ns p.1 p.2)
    { multi_step_tool := true, last_query_index := messages.length - 1 }).last_query_index

/-- Specification-side description of the scan result: the index of the last
true user query, defaulting to `messages|length - 1` when none exists. -/
def specLastQueryIndex (messages : List Message) : Nat :=
  (((messages.enum.filter (fun p => isTrueUserQuery p.2)).getLast?).map Prod.fst).getD
    (messages.length - 1)

/-! ## QWEN3_TEMPLATE: derived content and reasoning (qwen.py lines 356-365) -/

/-- The visible content variable after lines 356-364: the explicit content if
`reasoning_content` is defined and non-None or no `</think>` marker occurs,
otherwise `message.content.split('</think>')[-1].lstrip('\n')`. -/
def qwen3DeriveContent (m : Message) : String :=
  match m.reasoning_content with
  | some _ => m.content
  | none =>
    if hasSubstr m.content "</think>" then
      lstripNL ((pySplit m.content "</think>").getLastD "")
    else
      m.content

/-- The reasoning-content variable after lines 357-364: the explicit value if
defined and non-None, otherwise
`message.content.split('</think>')[0].rstrip('\n').split('<think>')[-1].lstrip('\n')`
when the marker occurs, else the empty string. -/
def qwen3DeriveReasoning (m : Message) : String :=
  match m.reasoning_content with
  | some r => r
  | none =>
    if hasSubstr m.content "</think>" then
      lstripNL ((pySplit (rstripNL ((pySplit m.content "</think>").headD "")) "<think>").getLastD "")
    else
      ""

/-! ## Segment plumbing: output accumulation with generation spans

A rendered fragment is a pair of the produced text and the list of half-open
`(start, stop)` generation spans, with offsets local to the fragment. -/

/-- A fragment with no generation span. -/
def litSeg (t : String) : String × List (Nat × Nat) := (t, [])

/-- A fragment entirely inside one `generation`/`endgeneration` block. -/
def genSeg (t : String) : String × List (Nat × Nat) := (t, [(0, t.length)])

/-- Append a fragment to an accumulated render, shifting its spans past the
text already produced. -/
def appendSeg (acc seg : String × List (Nat × Nat)) : String × List (Nat × Nat) :=
  (acc.1 ++ seg.1, acc.2 ++ seg.2.map (fun p => (p.1 + acc.1.length, p.2 + acc.1.length)))

/-- The role recorded at position `i` of the message list, if any. -/
def roleAt (messages : List Message) (i : Nat) : Option Role :=
  (messages.get? i).map (·.role)

/-! ## Tool-message wrapper (qwen.py lines 96-105 and 396-405; the two
template fragments are token-identical) -/

/-- `loop.first or (messages[loop.index0 - 1].role != "tool")`: open the
synthetic user wrapper. -/
def toolOpenHere (messages : List Message) (i : Nat) : Bool :=
  i == 0 || roleAt messages (i - 1) != some Role.tool

/-- `loop.last or (messages[loop.index0 + 1].role != "tool")`: close the
synthetic user wrapper. -/
def toolCloseHere (messages : List Message) (i : Nat) : Bool :=
  i == messages.length - 1 || roleAt messages (i + 1) != some Role.tool

/-- The text emitted for a `tool` message at position `i`. -/
def toolWrapperSegment (messages : List Message) (i : Nat) (m : Message) : String :=
  (if toolOpenHere messages i then "<|im_start|>user" else "")
    ++ "\n<tool_response>\n" ++ m.content ++ "\n</tool_response>"
    ++ (if toolCloseHere messages i then "<|im_end|>\n" else "")

/-! ## QWEN3_TEMPLATE: assistant turn (qwen.py lines 354-395) -/

/-- One `<tool_call>` body (qwen.py lines 383-391): a string-valued
`arguments` is emitted verbatim, anything else goes through `tojson`. -/
def qwen3RenderToolCall (tc : ToolCall) : String :=
  "<tool_call>\n\x7b\"name\": \"" ++ tc.name ++ "\", \"arguments\": "
    ++ (match tc.arguments with
        | .str s => s
        | .jsonObj j => ToolArgs.tojson (.jsonObj j))
    ++ "\x7d\n</tool_call>"

/-- The tool-call loop of an assistant turn (qwen.py lines 376-392): a
newline is emitted before every call except before the first one when the
derived content is empty. -/
def qwen3ToolCallsText (content : String) (tcs : List ToolCall) : String :=
  String.join ((tcs.enum).map (fun p =>
    (if (p.1 == 0 && content != "") || p.1 != 0 then "\n" else "")
      ++ qwen3RenderToolCall p.2))

/-- The full text of an assistant turn of `QWEN3_TEMPLATE` at position `i`
(qwen.py lines 355-394; the whole turn lies inside one generation block). -/
def qwen3AssistantBody (messages : List Message) (i : Nat) (m : Message) : String :=
  let content := qwen3DeriveContent m
  let reasoning := qwen3DeriveReasoning m
  let isLast := i == messages.length - 1
  (if i > qwen3LastQueryIndex messages then
    (if isLast || (!isLast && reasoning != "") then
      "<|im_start|>assistant\n<think>\n" ++ stripNL reasoning ++ "\n</think>\n\n"
        ++ lstripNL content
    else
      "<|im_start|>assistant\n" ++ content)
  else
    "<|im_start|>assistant\n" ++ content)
  ++ (if m.tool_calls != [] then qwen3ToolCallsText content m.tool_calls else "")
  ++ "<|im_end|>\n"

/-- The fragment produced for one message of the main loop of
`QWEN3_TEMPLATE` (qwen.py lines 351-406). -/
def qwen3Segment (messages : List Message) (i : Nat) (m : Message) :
    String × List (Nat × Nat) :=
  if m.role == Role.user || (m.role == Role.system && i != 0) then
    litSeg ("<|im_start|>" ++ m.role.str ++ "\n" ++ m.content ++ "<|im_end|>" ++ "\n")
  else if m.role == Role.assistant then
    genSeg (qwen3AssistantBody messages i m)
  else if m.role == Role.tool then
    litSeg (toolWrapperSegment messages i m)
  else
    litSeg ""

/-- The system/tools preamble of `QWEN3_TEMPLATE` (qwen.py lines 327-342). -/
def qwen3SystemPreamble (messages : List Message) (tools : List ToolSpec) : String :=
  if tools != [] then
    "<|im_start|>system\n"
      ++ (match messages with
          | m0 :: _ => if m0.role == Role.system then m0.content ++ "\n\n" else ""
          | [] => "")
      ++ "# Tools\n\nYou may call one or more functions to assist with the user query.\n\nYou are provided with function signatures within <tools></tools> XML tags:\n<tools>"
      ++ String.join (tools.map (fun t => "\n" ++ t.tojson))
      ++ "\n</tools>\n\nFor each function call, return a json object with function name and arguments within <tool_call></tool_call> XML tags:\n<tool_call>\n\x7b\"name\": <function-name>, \"arguments\": <args-json-object>\x7d\n</tool_call><|im_end|>\n"
  else
    match messages with
    | m0 :: _ =>
      if m0.role == Role.system then
        "<|im_start|>system\n" ++ m0.content ++ "<|im_end|>\n"
      else ""
    | [] => ""

/-- Preamble and main loop of `QWEN3_TEMPLATE`. -/
def qwen3Body (messages : List Message) (tools : List ToolSpec) :
    String × List (Nat × Nat) :=
  (messages.enum).foldl (fun acc p => appendSeg acc (qwen3Segment messages p.1 p.2))
    (litSeg (qwen3SystemPreamble messages tools))

/-- The generation prompt appended by `QWEN3_TEMPLATE` (qwen.py lines
408-413): when `add_generation_prompt`, an assistant header, plus an empty
think block exactly when `enable_thinking` is defined and false. -/
def qwen3GenPrompt (add_generation_prompt : Bool) (enable_thinking : Option Bool) : String :=
  if add_generation_prompt then
    "<|im_start|>assistant\n"
      ++ (if enable_thinking == some false then "<think>\n\n</think>\n\n" else "")
  else ""

/-- Full render of `QWEN3_TEMPLATE` (qwen.py lines 326-414). -/
def qwen3Render (messages : List Message) (tools : List ToolSpec)
    (add_generation_prompt : Bool) (enable_thinking : Option Bool) :
    String × List (Nat × Nat) :=
  ((qwen3Body messages tools).1 ++ qwen3GenPrompt add_generation_prompt enable_thinking,
   (qwen3Body messages tools).2)

/-! ## QWEN2_5_TEMPLATE (qwen.py lines 43-111) -/

/-- One `<tool_call>` fragment of `QWEN2_5_TEMPLATE` (qwen.py lines 85-91):
`arguments` always goes through `tojson` and the leading newline lies inside
the generation block. -/
def qwen25ToolCallText (tc : ToolCall) : String :=
  "\n<tool_call>\n\x7b\"name\": \"" ++ tc.name ++ "\", \"arguments\": "
    ++ tc.arguments.tojson ++ "\x7d\n</tool_call>"

/-- The fragment produced for one message of the main loop of
`QWEN2_5_TEMPLATE` (qwen.py lines 64-106). -/
def qwen25Segment (messages : List Message) (i : Nat) (m : Message) :
    String × List (Nat × Nat) :=
  if m.role == Role.user || (m.role == Role.system && i != 0)
      || (m.role == Role.assistant && m.tool_calls == []) then
    if m.role == Role.assistant then
      appendSeg (litSeg "<|im_start|>assistant\n")
        (genSeg (m.content ++ "<|im_end|>" ++ "\n"))
    else
      litSeg ("<|im_start|>" ++ m.role.str ++ "\n" ++ m.content ++ "<|im_end|>" ++ "\n")
  else if m.role == Role.assistant then
    appendSeg
      (m.tool_calls.foldl (fun acc tc => appendSeg acc (genSeg (qwen25ToolCallText tc)))
        (appendSeg (litSeg "<|im_start|>assistant")
          (if m.content != "" then genSeg ("\n" ++ m.content) else litSeg "")))
      (genSeg "<|im_end|>\n")
  else if m.role == Role.tool then
    litSeg (toolWrapperSegment messages i m)
  else
    litSeg ""

/-- The system/tools preamble of `QWEN2_5_TEMPLATE` (qwen.py lines 44-63). -/
def qwen25SystemPreamble (messages : List Message) (tools : List ToolSpec) : String :=
  if tools != [] then
    "<|im_start|>system\n"
      ++ (match messages with
          | m0 :: _ =>
            if m0.role == Role.system then m0.content
            else "You are Qwen, created by Alibaba Cloud. You are a helpful assistant."
          | [] => "You are Qwen, created by Alibaba Cloud. You are a helpful assistant.")
      ++ "\n\n# Tools\n\nYou may call one or more functions to assist with the user query.\n\nYou are provided with function signatures within <tools></tools> XML tags:\n<tools>"
      ++ String.join (tools.map (fun t => "\n" ++ t.tojson))
      ++ "\n</tools>\n\nFor each function call, return a json object with function name and arguments within <tool_call></tool_call> XML tags:\n<tool_call>\n\x7b\"name\": <function-name>, \"arguments\": <args-json-object>\x7d\n</tool_call><|im_end|>\n"
  else
    match messages with
    | m0 :: _ =>
      if m0.role == Role.system then
        "<|im_start|>system\n" ++ m0.content ++ "<|im_end|>\n"
      else
        "<|im_start|>system\nYou are Qwen, created by Alibaba Cloud. You are a helpful assistant.<|im_end|>\n"
    | [] =>
      "<|im_start|>system\nYou are Qwen, created by Alibaba Cloud. You are a helpful assistant.<|im_end|>\n"

/-- Preamble and main loop of `QWEN2_5_TEMPLATE`. -/
def qwen25Body (messages : List Message) (tools : List ToolSpec) :
    String × List (Nat × Nat) :=
  (messages.enum).foldl (fun acc p => appendSeg acc (qwen25Segment messages p.1 p.2))
    (litSeg (qwen25SystemPreamble messages tools))

/-- Full render of `QWEN2_5_TEMPLATE` (qwen.py lines 43-111). -/
def qwen25Render (messages : List Message) (tools : List ToolSpec)
    (add_generation_prompt : Bool) : String × List (Nat × Nat) :=
  ((qwen25Body messages tools).1
      ++ (if add_generation_prompt then "<|im_start|>assistant\n" else ""),
   (qwen25Body messages tools).2)

/-! ## Declarative formatter model

The classes `TemplateComponent`, `StringFormatter` and `ConversationTemplate`
live in `conversation_template/base.py`, which is not part of the sources at
hand; only their instantiations in `qwen.py` and `yi.py` are.  Their rendering
behaviour is therefore modelled from the specification (section 4.3). -/

/-- A template component as instantiated in `qwen.py`/`yi.py`. -/
structure TemplateComponent where
  type : String
  content : String
deriving DecidableEq, Repr

/-- A per-role formatter: an ordered sequence of components with one
`\x7b\x7bcontent\x7d\x7d` placeholder slot. -/
structure StringFormatter where
  template : List TemplateComponent
deriving DecidableEq, Repr

/-- Modelled from the spec: `render(formatter, content)` substitutes the
message content into the formatter's single placeholder and concatenates all
components in order (spec section 4.3); a `token` component renders to its
symbolic text form. -/
def StringFormatter.format (f : StringFormatter) (content : String) : String :=
  String.join (f.template.map (fun c =>
    if c.type == "string" then
      String.intercalate content (pySplit c.content "\x7b\x7bcontent\x7d\x7d")
    else c.content))

/-- The declarative conversation template, as instantiated in
`qwen.py`/`yi.py`: per-role formatters plus an optional separator. -/
structure ConversationTemplate where
  template_name : String
  system_formatter : Option StringFormatter := none
  user_formatter : Option StringFormatter := none
  assistant_formatter : Option StringFormatter := none
  separator : Option TemplateComponent := none
deriving DecidableEq, Repr

/-- Modelled from the spec: `ConversationTemplate.render(messages)` dispatches
each message to the formatter matching its role, joining successive rendered
messages with the separator; an unsupported role (or absent formatter) fails
(spec section 4.3). -/
def ConversationTemplate.render (t : ConversationTemplate) (messages : List Message) :
    Option String := do
  let rendered ← messages.mapM (fun m =>
    match m.role with
    | .system => t.system_formatter.map (·.format m.content)
    | .user => t.user_formatter.map (·.format m.content)
    | .assistant => t.assistant_formatter.map (·.format m.content)
    | .tool => none)
  pure (String.intercalate ((t.separator.map (·.content)).getD "") rendered)

/-- `QWEN2_TEMPLATE` (qwen.py lines 7-19). -/
def QWEN2_TEMPLATE : ConversationTemplate :=
  { template_name := "qwen2"
    user_formatter := some ⟨[⟨"string", "<|im_start|>user\n\x7b\x7bcontent\x7d\x7d<|im_end|>\n"⟩]⟩
    assistant_formatter := some ⟨[⟨"string", "<|im_start|>assistant\n\x7b\x7bcontent\x7d\x7d<|im_end|>\n"⟩]⟩
    system_formatter := some ⟨[⟨"string", "<|im_start|>system\n\x7b\x7bcontent\x7d\x7d<|im_end|>\n"⟩]⟩
    separator := some ⟨"string", "\n"⟩ }

/-- `YI1_5_TEMPLATE` (yi.py lines 5-14). -/
def YI1_5_TEMPLATE : ConversationTemplate :=
  { template_name := "yi1_5"
    user_formatter := some ⟨[⟨"string", "<|im_start|>user\n\x7b\x7bcontent\x7d\x7d<|im_end|>\n"⟩]⟩
    assistant_formatter := some ⟨[⟨"string", "<|im_start|>assistant\n\x7b\x7bcontent\x7d\x7d<|im_end|>\n"⟩]⟩
    system_formatter := some ⟨[⟨"string", "\x7b\x7bcontent\x7d\x7d"⟩]⟩ }

/-! ## Generation-span theory

`SpansChained cur sp len` states that the spans in `sp` are ordered half-open
intervals starting at or after `cur`, each ending before the next begins, and
all ending at or before `len`. -/

def SpansChained : Nat → List (Nat × Nat) → Nat → Prop
  | cur, [], len => cur ≤ len
  | cur, (s, e) :: rest, len => cur ≤ s ∧ s ≤ e ∧ SpansChained e rest len

/-- The characters of `l` at positions `[a, b)`. -/
def sliceChars (l : List Char) (a b : Nat) : List Char :=
  (l.drop a).take (b - a)

/-- Alternating gap/span concatenation from cursor position `cur`:
gap before the span, the span itself, recursively, and the final gap. -/
def reconstructFrom (l : List Char) : Nat → List (Nat × Nat) → List Char
  | cur, [] => l.drop cur
  | cur, (s, e) :: rest => sliceChars l cur s ++ sliceChars l s e ++ reconstructFrom l e rest

/-- Well-formedness of a rendered fragment: its spans are chained within its
own text. -/
def SegWF (r : String × List (Nat × Nat)) : Prop :=
  SpansChained 0 r.2 r.1.length

/-- The span invariants claimed by the specification, for a finished render:
monotone starts, pairwise disjointness, containment in the output, and exact
reconstruction of the output from gaps and spans. -/
def SpansOk (r : String × List (Nat × Nat)) : Prop :=
  r.2.Pairwise (fun p q => p.1 ≤ q.1) ∧
  r.2.Pairwise (fun p q => p.2 ≤ q.1) ∧
  (∀ p ∈ r.2, p.1 ≤ p.2 ∧ p.2 ≤ r.1.length) ∧
  reconstructFrom r.1.toList 0 r.2 = r.1.toList

/-! ## Concrete example conversations used by witnesses -/

/-- A conversation whose only user turn is a wrapped tool-response echo,
followed by a final assistant turn. -/
def msWrapped : List Message :=
  [{ role := Role.user, content := "<tool_response>x</tool_response>" },
   { role := Role.assistant, content := "ans" }]

/-- A three-message conversation for the reverse-iteration scenario. -/
def msThree : List Message :=
  [{ role := Role.user, content := "first" },
   { role := Role.assistant, content := "mid" },
   { role := Role.user, content := "last" }]

/-- A single assistant message, for the generation-span scenario. -/
def msHi : List Message := [{ role := Role.assistant, content := "hi" }]

/-- Two tool messages followed by a user message, for tool batching. -/
def msToolRun : List Message :=
  [{ role := Role.tool, content := "A" },
   { role := Role.tool, content := "B" },
   { role := Role.user, content := "C" }]

/-- A plain user/assistant exchange. -/
def msPlain : List Message :=
  [{ role := Role.user, content := "hi" },
   { role := Role.assistant, content := "ans" }]

/-- An assistant message carrying an inline think block. -/
def msThink : Message :=
  { role := Role.assistant, content := "<think>\nfoo\n</think>\nbar" }

/-- A tool call with pre-serialized string arguments. -/
def tcStrArgs : ToolCall :=
  { name := "get_weather", arguments := ToolArgs.str "\x7b\"city\": \"Paris\"\x7d" }

/-! ## Span lemmas -/

theorem spansChained_nil {cur len : Nat} : SpansChained cur [] len ↔ cur ≤ len :=
  Iff.rfl

theorem spansChained_cons {cur s e len : Nat} {rest : List (Nat × Nat)} :
    SpansChained cur ((s, e) :: rest) len ↔ cur ≤ s ∧ s ≤ e ∧ SpansChained e rest len :=
  Iff.rfl

theorem spansChained_le {cur len : Nat} {sp : List (Nat × Nat)}
    (h : SpansChained cur sp len) : cur ≤ len := by
  induction sp generalizing cur with
  | nil => exact h
  | cons p rest ih =>
    obtain ⟨h1, h2, h3⟩ := h
    exact le_trans h1 (le_trans h2 (ih h3))

theorem spansChained_mono {cur len len' : Nat} {sp : List (Nat × Nat)}
    (h : SpansChained cur sp len) (hle : len ≤ len') : SpansChained cur sp len' := by
  induction sp generalizing cur with
  | nil => exact le_trans h hle
  | cons p rest ih =>
    obtain ⟨h1, h2, h3⟩ := h
    exact ⟨h1, h2, ih h3⟩

theorem spansChained_lower {cur cur' len : Nat} {sp : List (Nat × Nat)}
    (hc : cur' ≤ cur) (h : SpansChained cur sp len) : SpansChained cur' sp len := by
  cases sp with
  | nil => exact le_trans hc h
  | cons p rest =>
    obtain ⟨h1, h2, h3⟩ := h
    exact ⟨le_trans hc h1, h2, h3⟩

theorem spansChained_shift {cur len : Nat} {sp : List (Nat × Nat)}
    (h : SpansChained cur sp len) (k : Nat) :
    SpansChained (cur + k) (sp.map (fun p => (p.1 + k, p.2 + k))) (len + k) := by
  induction sp generalizing cur with
  | nil => simpa [SpansChained] using Nat.add_le_add_right h k
  | cons p rest ih =>
    obtain ⟨h1, h2, h3⟩ := h
    exact ⟨Nat.add_le_add_right h1 k, Nat.add_le_add_right h2 k, ih h3⟩

theorem spansChained_append {cur n len : Nat} {xs ys : List (Nat × Nat)}
    (h1 : SpansChained cur xs n) (h2 : SpansChained n ys len) :
    SpansChained cur (xs ++ ys) len := by
  induction xs generalizing cur with
  | nil => exact spansChained_lower h1 h2
  | cons p rest ih =>
    obtain ⟨ha, hb, hc⟩ := h1
    exact ⟨ha, hb, ih hc⟩

theorem spansChained_start_le {cur len : Nat} {sp : List (Nat × Nat)}
    (h : SpansChained cur sp len) : ∀ p ∈ sp, cur ≤ p.1 := by
  induction sp generalizing cur with
  | nil => intro p hp; cases hp
  | cons q rest ih =>
    obtain ⟨h1, h2, h3⟩ := h
    intro p hp
    rcases List.mem_cons.mp hp with rfl | hp
    · exact h1
    · exact le_trans h1 (le_trans h2 (ih h3 p hp))

theorem spansChained_bounds {cur len : Nat} {sp : List (Nat × Nat)}
    (h : SpansChained cur sp len) : ∀ p ∈ sp, p.1 ≤ p.2 ∧ p.2 ≤ len := by
  induction sp generalizing cur with
  | nil => intro p hp; cases hp
  | cons q rest ih =>
    obtain ⟨h1, h2, h3⟩ := h
    intro p hp
    rcases List.mem_cons.mp hp with rfl | hp
    · exact ⟨h2, spansChained_le h3⟩
    · exact ih h3 p hp

theorem spansChained_pairwise_disjoint {cur len : Nat} {sp : List (Nat × Nat)}
    (h : SpansChained cur sp len) : sp.Pairwise (fun p q => p.2 ≤ q.1) := by
  induction sp generalizing cur with
  | nil => exact List.Pairwise.nil
  | cons q rest ih =>
    obtain ⟨h1, h2, h3⟩ := h
    exact List.Pairwise.cons (fun p hp => spansChained_start_le h3 p hp) (ih h3)

theorem spansChained_pairwise_start {cur len : Nat} {sp : List (Nat × Nat)}
    (h : SpansChained cur sp len) : sp.Pairwise (fun p q => p.1 ≤ q.1) := by
  induction sp generalizing cur with
  | nil => exact List.Pairwise.nil
  | cons q rest ih =>
    obtain ⟨h1, h2, h3⟩ := h
    exact List.Pairwise.cons
      (fun p hp => le_trans h2 (spansChained_start_le h3 p hp)) (ih h3)

/-! ### Reconstructing the output from gaps and spans -/

theorem sliceChars_append {a b c : Nat} (l : List Char) (hab : a ≤ b) (hbc : b ≤ c) :
    sliceChars l a b ++ sliceChars l b c = sliceChars l a c := by
  unfold sliceChars
  have hd : (l.drop a).drop (b - a) = l.drop b := by
    rw [List.drop_drop]
    congr 1
    omega
  rw [← hd]
  have : c - a = (b - a) + (c - b) := by omega
  rw [this, List.take_add]

theorem sliceChars_zero (l : List Char) (b : Nat) : sliceChars l 0 b = l.take b := by
  simp [sliceChars]

theorem reconstructFrom_eq {cur len : Nat} {sp : List (Nat × Nat)} (l : List Char)
    (h : SpansChained cur sp len) : l.take cur ++ reconstructFrom l cur sp = l := by
  induction sp generalizing cur with
  | nil => simp [reconstructFrom]
  | cons p rest ih =>
    obtain ⟨s, e⟩ := p
    obtain ⟨h1, h2, h3⟩ := h
    have hrec := ih h3
    calc l.take cur ++ reconstructFrom l cur ((s, e) :: rest)
        = (l.take cur ++ sliceChars l cur s ++ sliceChars l s e)
            ++ reconstructFrom l e rest := by
          simp [reconstructFrom, List.append_assoc]
      _ = l.take e ++ reconstructFrom l e rest := by
          have hgroup : l.take cur ++ sliceChars l cur s ++ sliceChars l s e = l.take e := by
            rw [← sliceChars_zero l cur, sliceChars_append l (Nat.zero_le cur) h1,
              sliceChars_append l (le_trans (Nat.zero_le cur) h1) h2, sliceChars_zero]
          rw [hgroup]
      _ = l := hrec

theorem SegWF.spansOk {r : String × List (Nat × Nat)} (h : SegWF r) : SpansOk r := by
  refine ⟨spansChained_pairwise_start h, spansChained_pairwise_disjoint h,
    spansChained_bounds h, ?_⟩
  have := reconstructFrom_eq r.1.toList h
  simpa using this

theorem litSeg_wf (t : String) : SegWF (litSeg t) := by
  simp [SegWF, litSeg, SpansChained]

theorem genSeg_wf (t : String) : SegWF (genSeg t) := by
  simp [SegWF, genSeg, SpansChained]

theorem appendSeg_wf {a b : String × List (Nat × Nat)}
    (ha : SegWF a) (hb : SegWF b) : SegWF (appendSeg a b) := by
  unfold SegWF appendSeg
  simp only [String.length_append]
  refine spansChained_append ha ?_
  have := spansChained_shift hb a.1.length
  simpa [Nat.add_comm] using this

theorem foldl_appendSeg_wf {α : Type} (l : List α) (g : α → String × List (Nat × Nat))
    (hg : ∀ x ∈ l, SegWF (g x)) (init : String × List (Nat × Nat)) (hi : SegWF init) :
    SegWF (l.foldl (fun acc x => appendSeg acc (g x)) init) := by
  induction l generalizing init with
  | nil => exact hi
  | cons x rest ih =>
    exact ih (fun y hy => hg y (List.mem_cons_of_mem x hy))
      _ (appendSeg_wf hi (hg x (List.mem_cons_self x rest)))

theorem qwen3Segment_wf (messages : List Message) (i : Nat) (m : Message) :
    SegWF (qwen3Segment messages i m) := by
  unfold qwen3Segment
  split_ifs <;> first | exact litSeg_wf _ | exact genSeg_wf _

theorem qwen25Segment_wf (messages : List Message) (i : Nat) (m : Message) :
    SegWF (qwen25Segment messages i m) := by
  unfold qwen25Segment
  split_ifs <;>
    first
      | exact litSeg_wf _
      | exact appendSeg_wf (litSeg_wf _) (genSeg_wf _)
      | exact appendSeg_wf
          (foldl_appendSeg_wf _ _ (fun tc _ => genSeg_wf _) _
            (appendSeg_wf (litSeg_wf _) (genSeg_wf _)))
          (genSeg_wf _)
      | exact appendSeg_wf
          (foldl_appendSeg_wf _ _ (fun tc _ => genSeg_wf _) _
            (appendSeg_wf (litSeg_wf _) (litSeg_wf _)))
          (genSeg_wf _)

theorem qwen3Body_wf (messages : List Message) (tools : List ToolSpec) :
    SegWF (qwen3Body messages tools) :=
  foldl_appendSeg_wf _ _ (fun p _ => qwen3Segment_wf messages p.1 p.2) _ (litSeg_wf _)

theorem qwen25Body_wf (messages : List Message) (tools : List ToolSpec) :
    SegWF (qwen25Body messages tools) :=
  foldl_appendSeg_wf _ _ (fun p _ => qwen25Segment_wf messages p.1 p.2) _ (litSeg_wf _)

theorem qwen3Render_wf (messages : List Message) (tools : List ToolSpec)
    (agp : Bool) (et : Option Bool) : SegWF (qwen3Render messages tools agp et) := by
  unfold SegWF qwen3Render
  simp only [String.length_append]
  exact spansChained_mono (qwen3Body_wf messages tools) (Nat.le_add_right _ _)

theorem qwen25Render_wf (messages : List Message) (tools : List ToolSpec)
    (agp : Bool) : SegWF (qwen25Render messages tools agp) := by
  unfold SegWF qwen25Render
  simp only [String.length_append]
  exact spansChained_mono (qwen25Body_wf messages tools) (Nat.le_add_right _ _)

/-! ## Characterization of the reverse scan -/

theorem find?_eq_head?_filter {α : Type} (p : α → Bool) (l : List α) :
    l.find? p = (l.filter p).head? := by
  induction l with
  | nil => rfl
  | cons a l ih =>
    by_cases h : p a
    · rw [List.find?_cons_of_pos _ h, List.filter_cons_of_pos h, List.head?_cons]
    · rw [List.find?_cons_of_neg _ h, List.filter_cons_of_neg h, ih]

theorem foldl_scan_locked (l : List (Nat × Message)) (i : Nat) :
    l.foldl (fun ns p => qwen3ScanStep ns p.1 p.2) ⟨false, i⟩ = ⟨false, i⟩ := by
  induction l with
  | nil => rfl
  | cons q l ih => simpa [qwen3ScanStep] using ih

theorem foldl_scan_char (l : List (Nat × Message)) (d : Nat) :
    (l.foldl (fun ns p => qwen3ScanStep ns p.1 p.2) ⟨true, d⟩).last_query_index
      = ((l.find? (fun p => isTrueUserQuery p.2)).map Prod.fst).getD d := by
  induction l generalizing d with
  | nil => rfl
  | cons q l ih =>
    rw [List.foldl_cons]
    by_cases h : isTrueUserQuery q.2
    · have hstep : qwen3ScanStep ⟨true, d⟩ q.1 q.2 = ⟨false, q.1⟩ := by
        simp [qwen3ScanStep, h]
      have hfind : List.find? (fun p => isTrueUserQuery p.2) (q :: l) = some q :=
        List.find?_cons_of_pos _ h
      rw [hstep, foldl_scan_locked, hfind]
      rfl
    · have hstep : qwen3ScanStep ⟨true, d⟩ q.1 q.2 = ⟨true, d⟩ := by
        simp [qwen3ScanStep, h]
      have hfind : List.find? (fun p => isTrueUserQuery p.2) (q :: l)
          = List.find? (fun p => isTrueUserQuery p.2) l :=
        List.find?_cons_of_neg _ h
      rw [hstep, ih, hfind]

theorem reverseVisit_eq_enum_reverse (messages : List Message) :
    qwen3ReverseVisit messages = messages.enum.reverse := by
  apply List.ext_getElem
  · simp [qwen3ReverseVisit, List.enum_length]
  · intro i h1 h2
    simp only [qwen3ReverseVisit, List.length_map, List.enum_length,
      List.length_reverse] at h1
    have h2' : i < messages.enum.length := by simpa [List.enum_length] using h1
    simp only [qwen3ReverseVisit, List.getElem_map, List.getElem_reverse,
      List.getElem_enum, List.enum_length]

theorem filter_reverse' {α : Type} (p : α → Bool) (l : List α) :
    l.reverse.filter p = (l.filter p).reverse := by
  induction l with
  | nil => rfl
  | cons a l ih =>
    by_cases h : p a <;>
      simp [List.filter_append, h, ih]

/-- The scan of qwen.py lines 343-350 computes the index of the last true
user query, defaulting to `messages|length - 1`. -/
theorem lastQueryIndex_eq_spec (messages : List Message) :
    qwen3LastQueryIndex messages = specLastQueryIndex messages := by
  unfold qwen3LastQueryIndex specLastQueryIndex
  rw [reverseVisit_eq_enum_reverse, foldl_scan_char,
    find?_eq_head?_filter, filter_reverse', List.head?_reverse]

/-! ## Claims -/

/-- C4: for every conversation, the generation spans produced by a render of
`QWEN3_TEMPLATE` or `QWEN2_5_TEMPLATE` are monotonically non-decreasing in
start offset, pairwise non-overlapping, contained in `[0, len(output))`, and
concatenating the non-generation gaps and the generation spans in order
reconstructs the full output exactly once. -/
theorem C4_span_invariants (messages : List Message) (tools : List ToolSpec)
    (agp : Bool) (et : Option Bool) :
    SpansOk (qwen3Render messages tools agp et) ∧
    SpansOk (qwen25Render messages tools agp) :=
  ⟨(qwen3Render_wf messages tools agp et).spansOk,
   (qwen25Render_wf messages tools agp).spansOk⟩

/-- C10: rendering `QWEN3_TEMPLATE` with `add_generation_prompt` true equals
the render with the flag false followed by `<|im_start|>assistant\n` (plus an
empty think block exactly when `enable_thinking` is defined and false); the
span lists coincide, and no span reaches into the appended prompt text. -/
theorem C10_generation_prompt_frame (messages : List Message) (tools : List ToolSpec)
    (et : Option Bool) :
    (qwen3Render messages tools true et).1
      = (qwen3Render messages tools false et).1 ++ "<|im_start|>assistant\n"
        ++ (if et == some false then "<think>\n\n</think>\n\n" else "") ∧
    (qwen3Render messages tools true et).2 = (qwen3Render messages tools false et).2 ∧
    ∀ p ∈ (qwen3Render messages tools true et).2,
      p.2 ≤ (qwen3Render messages tools false et).1.length := by
  have hout : (qwen3Render messages tools false et).1 = (qwen3Body messages tools).1 := by
    simp [qwen3Render, qwen3GenPrompt, String.append_empty]
  refine ⟨?_, rfl, ?_⟩
  · rw [hout]
    simp [qwen3Render, qwen3GenPrompt, String.append_assoc]
  · intro p hp
    have hb := spansChained_bounds (qwen3Body_wf messages tools) p hp
    rw [hout]
    exact hb.2

set_option maxRecDepth 8000 in
/-- C10 witness: the frame property applied to a concrete conversation. -/
theorem C10_witness :
    (30, 85) ∈ (qwen3Render msPlain [] true none).2 ∧
    85 ≤ (qwen3Render msPlain [] false none).1.length := by
  have h := (C10_generation_prompt_frame msPlain [] none).2.2 (30, 85) (by decide)
  exact ⟨by decide, h⟩

/-- C8: a tool call rendered by `QWEN3_TEMPLATE` emits string-valued
`arguments` verbatim and serializes any other value through `tojson`; either
way the emitted turn has the shape
`<tool_call>\n\x7b"name": "NAME", "arguments": ARGS\x7d\n</tool_call>`. -/
theorem C8_toolcall_emission (tc : ToolCall) :
    (∀ s, tc.arguments = ToolArgs.str s →
      qwen3RenderToolCall tc
        = "<tool_call>\n\x7b\"name\": \"" ++ tc.name ++ "\", \"arguments\": " ++ s
          ++ "\x7d\n</tool_call>") ∧
    (∀ j, tc.arguments = ToolArgs.jsonObj j →
      qwen3RenderToolCall tc
        = "<tool_call>\n\x7b\"name\": \"" ++ tc.name ++ "\", \"arguments\": "
          ++ tc.arguments.tojson ++ "\x7d\n</tool_call>") := by
  obtain ⟨n, args⟩ := tc
  constructor
  · rintro s rfl
    rfl
  · rintro j rfl
    rfl

/-- C8 witness: a concrete tool call with pre-serialized string arguments is
emitted verbatim. -/
theorem C8_witness :
    tcStrArgs.arguments = ToolArgs.str "\x7b\"city\": \"Paris\"\x7d" ∧
    qwen3RenderToolCall tcStrArgs
      = "<tool_call>\n\x7b\"name\": \"get_weather\", \"arguments\": \x7b\"city\": \"Paris\"\x7d\x7d\n</tool_call>" :=
  ⟨rfl, ((C8_toolcall_emission tcStrArgs).1 _ rfl).trans (by decide)⟩

/-- C9: a single-message render of the declarative model applies the
role-specific formatter with no separator: `QWEN2_TEMPLATE` renders a lone
user message to `<|im_start|>user\n` + content + `<|im_end|>\n`, and
`YI1_5_TEMPLATE` renders a lone system message to exactly its content. -/
theorem C9_declarative_single_message (c : String) :
    QWEN2_TEMPLATE.render [{ role := Role.user, content := c }]
      = some ("<|im_start|>user\n" ++ c ++ "<|im_end|>\n") ∧
    YI1_5_TEMPLATE.render [{ role := Role.system, content := c }] = some c := by
  refine ⟨rfl, ?_⟩
  show some ("" ++ (("" ++ c) ++ "")) = some c
  rw [String.empty_append, String.empty_append, String.append_empty]

set_option maxRecDepth 8000 in
/-- C6: a single assistant message "hi" under `QWEN2_5_TEMPLATE` yields
output containing "hi" with exactly one generation span whose substring is
the text produced inside the block, end-of-turn marker included; a
conversation of only a system and a user message yields zero spans. -/
theorem C6_generation_block_scenario :
    (qwen25Render msHi [] false).2 = [(120, 133)] ∧
    String.mk (sliceChars (qwen25Render msHi [] false).1.toList 120 133)
      = "hi<|im_end|>\n" ∧
    hasSubstr (qwen25Render msHi [] false).1 "hi" = true ∧
    (∀ sc uc : String,
      (qwen25Render [{ role := Role.system, content := sc },
        { role := Role.user, content := uc }] [] false).2 = []) :=
  ⟨rfl, rfl, rfl, fun _ _ => rfl⟩

/-- C5 counterexample: iterating `messages[::-1]` over
`[user, assistant, user]` visits the user message at index 2 first, not the
assistant, refuting the claimed visit order assistant, user(2), user(0). -/
theorem C5_counterexample :
    ((qwen3ReverseVisit msThree).map (fun p => p.2.role)).head? = some Role.user ∧
    ((qwen3ReverseVisit msThree).map (fun p => p.2.role)).head? ≠ some Role.assistant ∧
    (qwen3ReverseVisit msThree).map (fun p => p.2.role)
      ≠ [Role.assistant, Role.user, Role.user] :=
  ⟨rfl, by decide, by decide⟩

/-- C5 (amended): the reverse iteration visits user(index 2), then
assistant(index 1), then user(index 0), and in general visits the messages
back to front while the accompanying `index` computation recovers each
message's original forward position. -/
theorem C5_reverse_iteration_order :
    qwen3ReverseVisit msThree
      = [(2, { role := Role.user, content := "last" }),
         (1, { role := Role.assistant, content := "mid" }),
         (0, { role := Role.user, content := "first" })] ∧
    ∀ messages : List Message, qwen3ReverseVisit messages = messages.enum.reverse :=
  ⟨rfl, reverseVisit_eq_enum_reverse⟩

/-- C2: within a maximal run `[i, j]` of consecutive tool messages, the
synthetic `<|im_start|>user` wrapper opens exactly at position `i` (first
message, or previous role not tool) and the closing `<|im_end|>\n` is emitted
exactly at position `j` (last message, or next role not tool), for both
`QWEN3_TEMPLATE` and `QWEN2_5_TEMPLATE`; hence the run gets exactly one
open/close pair. -/
theorem C2_tool_wrapper_batching (messages : List Message) (i j : Nat)
    (hj : j < messages.length) (hij : i ≤ j)
    (hrun : ∀ k, i ≤ k → k ≤ j → roleAt messages k = some Role.tool)
    (hstart : i = 0 ∨ roleAt messages (i - 1) ≠ some Role.tool)
    (hstop : j = messages.length - 1 ∨ roleAt messages (j + 1) ≠ some Role.tool) :
    ∀ k, i ≤ k → k ≤ j →
      (toolOpenHere messages k = decide (k = i)) ∧
      (toolCloseHere messages k = decide (k = j)) ∧
      ∀ m, messages.get? k = some m →
        (qwen3Segment messages k m).1 = toolWrapperSegment messages k m ∧
        (qwen25Segment messages k m).1 = toolWrapperSegment messages k m := by
  intro k hik hkj
  refine ⟨?_, ?_, ?_⟩
  · by_cases hk : k = i
    · subst hk
      rcases hstart with h0 | hprev
      · simp [toolOpenHere, h0]
      · simp [toolOpenHere, hprev]
    · have hprev := hrun (k - 1) (by omega) (by omega)
      have hk0 : k ≠ 0 := by omega
      simp [toolOpenHere, hk0, hprev, hk]
  · by_cases hk : k = j
    · subst hk
      rcases hstop with h0 | hnext
      · simp [toolCloseHere, h0]
      · simp [toolCloseHere, hnext]
    · have hnext := hrun (k + 1) (by omega) (by omega)
      have hkl : k ≠ messages.length - 1 := by omega
      simp [toolCloseHere, hkl, hnext, hk]
  · intro m hm
    have hrole : m.role = Role.tool := by
      have h := hrun k hik hkj
      rw [roleAt, hm] at h
      simpa using h
    constructor
    · unfold qwen3Segment
      simp [hrole, litSeg]
    · unfold qwen25Segment
      simp [hrole, litSeg]

/-- C2 witness: in `[tool(A), tool(B), user(C)]` the wrapper opens only at
index 0 and closes only at index 1. -/
theorem C2_witness :
    toolOpenHere msToolRun 0 = true ∧ toolCloseHere msToolRun 0 = false ∧
    toolOpenHere msToolRun 1 = false ∧ toolCloseHere msToolRun 1 = true := by
  have h := C2_tool_wrapper_batching msToolRun 0 1 (by decide) (by decide)
    (fun k h1 h2 => by interval_cases k <;> rfl)
    (Or.inl rfl) (Or.inr (by decide))
  obtain ⟨ho0, hc0, -⟩ := h 0 (by decide) (by decide)
  obtain ⟨ho1, hc1, -⟩ := h 1 (by decide) (by decide)
  exact ⟨by rw [ho0]; decide, by rw [hc0]; decide, by rw [ho1]; decide,
    by rw [hc1]; decide⟩

set_option maxRecDepth 8000 in
/-- C1 counterexample: in `msWrapped` the only user turn is a wrapped
tool-response echo, so the scan leaves `last_query_index` at 1; the final
assistant message sits exactly AT that index, yet the render emits no think
block — refuting the claimed "at or after that index". -/
theorem C1_counterexample :
    qwen3LastQueryIndex msWrapped = 1 ∧
    roleAt msWrapped 1 = some Role.assistant ∧
    msWrapped.length - 1 = 1 ∧
    hasSubstr (qwen3Render msWrapped [] false none).1 "<think>" = false ∧
    (qwen3Render msWrapped [] false none).1
      = "<|im_start|>user\n<tool_response>x</tool_response><|im_end|>\n<|im_start|>assistant\nans<|im_end|>\n" :=
  ⟨rfl, rfl, rfl, rfl, by decide⟩

/-- C1 (amended): the reverse scan computes the index of the last true user
query (skipping wrapped tool-response echoes, defaulting to the last index),
and an assistant message re-emits the think block exactly when its position is
STRICTLY after that index and it is the final message or its derived
reasoning content is non-empty; the re-emitted block is
`<|im_start|>assistant\n<think>\n` + stripped reasoning + `\n</think>\n\n`
followed by the visible content with leading newlines stripped. -/
theorem C1_think_block_emission (messages : List Message) (i : Nat) (m : Message)
    (_hm : messages.get? i = some m) (hrole : m.role = Role.assistant) :
    qwen3LastQueryIndex messages = specLastQueryIndex messages ∧
    (qwen3Segment messages i m).1
      = (if qwen3LastQueryIndex messages < i
            ∧ (i = messages.length - 1 ∨ qwen3DeriveReasoning m ≠ "") then
          "<|im_start|>assistant\n<think>\n" ++ stripNL (qwen3DeriveReasoning m)
            ++ "\n</think>\n\n" ++ lstripNL (qwen3DeriveContent m)
        else
          "<|im_start|>assistant\n" ++ qwen3DeriveContent m)
        ++ (if m.tool_calls != [] then
              qwen3ToolCallsText (qwen3DeriveContent m) m.tool_calls
            else "")
        ++ "<|im_end|>\n" := by
  refine ⟨lastQueryIndex_eq_spec messages, ?_⟩
  have hseg : (qwen3Segment messages i m).1 = qwen3AssistantBody messages i m := by
    unfold qwen3Segment
    simp [hrole, genSeg]
  rw [hseg]
  unfold qwen3AssistantBody
  by_cases h1 : qwen3LastQueryIndex messages < i
  · by_cases h2 : i = messages.length - 1
    · have hb : (i == messages.length - 1) = true := by simp [h2]
      simp [h1, hb, h2]
    · have hb : (i == messages.length - 1) = false := by simp [h2]
      by_cases h3 : qwen3DeriveReasoning m = ""
      · have hr : (qwen3DeriveReasoning m != "") = false := by simp [h3]
        simp [h1, hb, hr, h2, h3]
      · have hr : (qwen3DeriveReasoning m != "") = true := by simp [h3]
        simp [h1, hb, hr, h2, h3]
  · simp [h1]

set_option maxRecDepth 8000 in
/-- C1 witness: in a plain user/assistant exchange, the final assistant turn
sits strictly after the last query index and is rendered with the think
block. -/
theorem C1_witness :
    msPlain.get? 1 = some { role := Role.assistant, content := "ans" } ∧
    (qwen3Segment msPlain 1 { role := Role.assistant, content := "ans" }).1
      = "<|im_start|>assistant\n<think>\n\n</think>\n\nans<|im_end|>\n" := by
  have h := (C1_think_block_emission msPlain 1
    { role := Role.assistant, content := "ans" } rfl rfl).2
  refine ⟨rfl, ?_⟩
  rw [h]
  decide

/-- C3: for each assistant message: an explicitly defined non-None
`reasoning_content` is used as the reasoning with the full content as visible
content; otherwise a `</think>` occurrence splits the content into visible
content (text after the last marker, leading newlines stripped) and reasoning
(text between `<think>` and `</think>`, surrounding newlines stripped); no
marker yields empty reasoning and the whole content field. -/
theorem C3_reasoning_content_derivation (m : Message) :
    (∀ r, m.reasoning_content = some r →
      qwen3DeriveReasoning m = r ∧ qwen3DeriveContent m = m.content) ∧
    (m.reasoning_content = none → hasSubstr m.content "</think>" = true →
      qwen3DeriveContent m = lstripNL ((pySplit m.content "</think>").getLastD "") ∧
      qwen3DeriveReasoning m
        = lstripNL ((pySplit (rstripNL ((pySplit m.content "</think>").headD ""))
            "<think>").getLastD "")) ∧
    (m.reasoning_content = none → hasSubstr m.content "</think>" = false →
      qwen3DeriveReasoning m = "" ∧ qwen3DeriveContent m = m.content) := by
  refine ⟨?_, ?_, ?_⟩
  · intro r hr
    constructor <;> simp [qwen3DeriveReasoning, qwen3DeriveContent, hr]
  · intro hn ht
    constructor <;> simp [qwen3DeriveContent, qwen3DeriveReasoning, hn, ht]
  · intro hn ht
    constructor <;> simp [qwen3DeriveReasoning, qwen3DeriveContent, hn, ht]

set_option maxRecDepth 8000 in
/-- C3 witness: content `<think>\nfoo\n</think>\nbar` derives visible content
`bar` and reasoning `foo`. -/
theorem C3_witness :
    msThink.reasoning_content = none ∧
    hasSubstr msThink.content "</think>" = true ∧
    qwen3DeriveContent msThink = "bar" ∧
    qwen3DeriveReasoning msThink = "foo" := by
  have h := (C3_reasoning_content_derivation msThink).2.1 rfl rfl
  exact ⟨rfl, rfl, h.1.trans (by decide), h.2.trans (by decide)⟩

end LMFlow
